import Mathlib

/-!
Verification of the gravity-simulator engine in `src/script.js`.

The engine is shallowly embedded over `ℝ`: JavaScript `Number` arithmetic is
idealised as exact real arithmetic, and `Math.sqrt` / `Math.pow (·, 0.5)`
become `Real.sqrt`.  In-place mutation in the source (`Vector2.normalize`,
the marking of bodies during the collision pass, the force accumulation loop)
is rendered as explicit state threading over immutable values; since every
`Body` object in the program is freshly allocated (no aliasing ever arises),
this value semantics is faithful to the reference counting of the source.

The ambient randomness of the source (`Math.random`) is modelled as injected
inputs: `Body.merge` takes the coin that chooses the merged colour, and the
random draws of `placeNewBody` are explicit parameters.
-/

noncomputable section

namespace GravitySim

open Classical

/-- Constant `G` from `script.js`. -/
def G : ℝ := 6.6743e-11

/-- Constant `AU` from `script.js`. -/
def AU : ℝ := 150e9

/-- Constant `LY` from `script.js` (unused by the engine, kept for fidelity). -/
def LY : ℝ := 9.461e15

/-- Constant `SUN_MASS` from `script.js`. -/
def SUN_MASS : ℝ := 1.989e30

/-- Constant `SUN_RADIUS` from `script.js`. -/
def SUN_RADIUS : ℝ := 696340e3

/-- Constant `SIMULATION_WIDTH = 2 * AU` from `script.js`. -/
def SIMULATION_WIDTH : ℝ := 2 * AU

/-- Constant `SIMULATION_HEIGHT = 2 * AU` from `script.js`. -/
def SIMULATION_HEIGHT : ℝ := 2 * AU

/-- The `Vector2` class of `script.js`: a pair of numbers. -/
@[ext]
structure Vector2 where
  x : ℝ
  y : ℝ

/-- Operation `Vector2.plus` from `script.js`. -/
def Vector2.plus (v w : Vector2) : Vector2 := ⟨v.x + w.x, v.y + w.y⟩

/-- Operation `Vector2.minus` from `script.js`. -/
def Vector2.minus (v w : Vector2) : Vector2 := ⟨v.x - w.x, v.y - w.y⟩

/-- Operation `Vector2.times` from `script.js`. -/
def Vector2.times (v : Vector2) (d : ℝ) : Vector2 := ⟨v.x * d, v.y * d⟩

/-- Operation `Vector2.length` from `script.js`: `Math.sqrt(x ** 2 + y ** 2)`. -/
def Vector2.length (v : Vector2) : ℝ := Real.sqrt (v.x ^ 2 + v.y ^ 2)

/-- Operation `Vector2.distanceTo` from `script.js`: `v.minus(this).length()`. -/
def Vector2.distanceTo (v w : Vector2) : ℝ := (w.minus v).length

/-- Operation `Vector2.normalize` from `script.js`: divides both components by the
current length.  The source mutates in place; the embedding returns the
resulting value. -/
def Vector2.normalize (v : Vector2) : Vector2 :=
  ⟨v.x / v.length, v.y / v.length⟩

/-- The result of `new Vector2()` in `script.js` (both components default
to `0`). -/
def Vector2.zero : Vector2 := ⟨0, 0⟩

/-- The fixed palette `BODY_COLORS = ['yellow', 'blue', 'red']`. -/
inductive BodyColor where
  | yellow
  | blue
  | red
  deriving DecidableEq

/-- The `Body` class of `script.js`.  The constructor fields `force` and
`markedForRemoval` are always initialised to `new Vector2()` and `false`;
the colour is random when not supplied, which the embedding models by
passing the chosen colour explicitly. -/
structure Body where
  mass : ℝ
  massCenter : Vector2
  movement : Vector2
  force : Vector2
  markedForRemoval : Bool
  color : BodyColor

/-- Operation `Body.distanceTo` from `script.js`. -/
def Body.distanceTo (b c : Body) : ℝ := b.massCenter.distanceTo c.massCenter

/-- Operation `Body.gravitationalForce` from `script.js`. -/
def Body.gravitationalForce (b c : Body) : Vector2 :=
  let direction := c.massCenter.minus b.massCenter
  let distance := direction.length
  let dir := direction.normalize
  let force := G * b.mass * c.mass / distance ^ 2
  dir.times force

/-- Operation `Body.move` from `script.js`. -/
def Body.move (b : Body) : Body :=
  let v1 := b.force.times (1.0 / b.mass)
  let v2 := b.massCenter.plus v1
  let newPosition := b.movement.plus v2
  let newMovement := newPosition.minus b.massCenter
  { b with massCenter := newPosition, movement := newMovement }

/-- Operation `Body.radius` from `script.js`:
`Math.min(SUN_RADIUS * Math.pow(mass / SUN_MASS, 0.5), 0.05 * AU)`. -/
def Body.radius (b : Body) : ℝ :=
  min (SUN_RADIUS * Real.sqrt (b.mass / SUN_MASS)) (0.05 * AU)

/-- Operation `Body.collidesWith` from `script.js`. -/
def Body.collidesWith (b c : Body) : Prop :=
  b.distanceTo c < b.radius + c.radius

/-- Operation `Body.merge` from `script.js`.  `coin` stands for the one call to
`Math.random() < 0.5` that picks the merged colour; the constructor call
`new Body(...)` resets `force` to zero and `markedForRemoval` to `false`. -/
def Body.merge (b c : Body) (coin : Bool) : Body :=
  let newMass := b.mass + c.mass
  let newMassCenter :=
    ((b.massCenter.times b.mass).plus (c.massCenter.times c.mass)).times
      (1.0 / newMass)
  let newCurrentMovement :=
    ((b.movement.times b.mass).plus (c.movement.times c.mass)).times
      (1.0 / newMass)
  let newColor := if coin then b.color else c.color
  { mass := newMass, massCenter := newMassCenter,
    movement := newCurrentMovement, force := Vector2.zero,
    markedForRemoval := false, color := newColor }

/-- The engine state of the `Simulation` class: the ordered body collection
and the tick counter `time`.  Canvas, painter and interval handle are
rendering/driver state outside the core. -/
structure Simulation where
  bodies : List Body
  time : ℕ

/-- Out-of-bounds placeholder for indexed access; every array access the
source performs is in bounds, so this value is never produced by the loops
below on their actual domains. -/
def dummyBody : Body :=
  { mass := 0, massCenter := Vector2.zero, movement := Vector2.zero,
    force := Vector2.zero, markedForRemoval := false,
    color := BodyColor.yellow }

/-- Access `this.bodies[i]` as a total function. -/
def getB (bs : List Body) (i : ℕ) : Body := bs.getD i dummyBody

/-- Marking `body2.markedForRemoval = true` applied to a body value. -/
def markBody (b : Body) : Body := { b with markedForRemoval := true }

/-- One iteration of the inner collision-scan loop of
`Simulation.calculateOneTick` for a fixed outer body `current` at index `i`:
skip when `i == j` or either body is marked, otherwise mark and collect a
colliding `j`.  The accumulator carries the (mutated) collection and the
`collidingBodies` list. -/
def scanStep (current : Body) (i : ℕ) (acc : List Body × List Body)
    (j : ℕ) : List Body × List Body :=
  if j = i ∨ current.markedForRemoval ∨ (getB acc.1 j).markedForRemoval then
    acc
  else if current.collidesWith (getB acc.1 j) then
    (acc.1.set j (markBody (getB acc.1 j)),
     acc.2 ++ [markBody (getB acc.1 j)])
  else acc

/-- Loop `collidingBodies.forEach((b) => (current = current.merge(b)))`, threading
the index of the next random coin. -/
def mergeFold (coins : ℕ → Bool) (start : Body × ℕ) (partners : List Body) :
    Body × ℕ :=
  partners.foldl (fun st b => (st.1.merge b (coins st.2), st.2 + 1)) start

/-- One iteration of the outer collision loop of
`Simulation.calculateOneTick`: scan all `j`, then fold the collected
colliding bodies into `current` and store the result back at slot `i` when
any partner was found. -/
def codeOuter (coins : ℕ → Bool) (st : List Body × ℕ) (i : ℕ) :
    List Body × ℕ :=
  let current := getB st.1 i
  let scanned := (List.range st.1.length).foldl (scanStep current i)
    (st.1, [])
  if 0 < scanned.2.length then
    let m := mergeFold coins (current, st.2) scanned.2
    ((scanned.1).set i m.1, m.2)
  else (scanned.1, st.2)

/-- The collision-resolution part of `Simulation.calculateOneTick`: the
nested marking/merging loops followed by
`this.bodies.filter((b) => !b.markedForRemoval)`. -/
def collisionPhase (coins : ℕ → Bool) (bodies : List Body) : List Body :=
  (((List.range bodies.length).foldl (codeOuter coins) (bodies, 0)).1).filter
    (fun b => !b.markedForRemoval)

/-- One iteration of the outer force loop of `Simulation.calculateOneTick`:
reset `bodies[i].force` to zero, then add `gravitationalForce` towards every
other body. -/
def forceStep (bs : List Body) (i : ℕ) : List Body :=
  let bs1 := bs.set i { getB bs i with force := Vector2.zero }
  (List.range bs1.length).foldl
    (fun bs2 j =>
      if j = i then bs2
      else
        bs2.set i
          { getB bs2 i with
            force :=
              (getB bs2 i).force.plus
                ((getB bs2 i).gravitationalForce (getB bs2 j)) })
    bs1

/-- The force-accumulation part of `Simulation.calculateOneTick`. -/
def computeForces (bs : List Body) : List Body :=
  (List.range bs.length).foldl forceStep bs

/-- Operation `Simulation.calculateOneTick` from `script.js`: collision resolution,
then force accumulation, then `this.bodies.forEach((b) => b.move())`, then
`this.time++`. -/
def calculateOneTick (coins : ℕ → Bool) (s : Simulation) : Simulation :=
  { bodies := ((computeForces (collisionPhase coins s.bodies)).map Body.move),
    time := s.time + 1 }

/-- Iterated `step()` calls. -/
def stepN (coins : ℕ → Bool) : ℕ → Simulation → Simulation
  | 0, s => s
  | n + 1, s => stepN coins n (calculateOneTick coins s)

/-- Operation `Simulation.getRandomMass` from `script.js`, with the `Math.random()`
draw `r` passed in. -/
def getRandomMass (r : ℝ) : ℝ := 5 * r * SUN_MASS

/-- Operation `Simulation.getRandomMovement` from `script.js`, with the two
`Math.random()` draws passed in. -/
def getRandomMovement (r1 r2 : ℝ) : Vector2 :=
  ⟨(r1 - 0.5) * (AU / 5000), (r2 - 0.5) * (AU / 5000)⟩

/-- Operation `Simulation.placeNewBody` from `script.js`: builds a body with
`getRandomMass()`, the clicked position and `getRandomMovement()`, and
pushes it onto the collection.  The random draws `rMass`, `r1`, `r2` and the
randomly picked colour `c` of the `Body` constructor are explicit inputs. -/
def placeNewBody (s : Simulation) (x y rMass r1 r2 : ℝ) (c : BodyColor) :
    Simulation :=
  { s with
    bodies := s.bodies ++
      [{ mass := getRandomMass rMass, massCenter := ⟨x, y⟩,
         movement := getRandomMovement r1 r2, force := Vector2.zero,
         markedForRemoval := false, color := c }] }

/-!  Spec-side definitions.

The following definitions are written from the words of the specification,
for comparison with the code-derived definitions above. -/

/-- Modelled from the spec, §4.2: the claimed radius formula
`min(SUN_RADIUS * sqrt(mass / SUN_MASS), capRadius)` with `capRadius` equal
to 5% of the world width. -/
def radiusClaim (b : Body) : ℝ :=
  min (SUN_RADIUS * Real.sqrt (b.mass / SUN_MASS)) (0.05 * SIMULATION_WIDTH)

/-- Modelled from the spec, §4.3 step 1: the indices of the partners of the
outer body `i` — every other body `j`, not yet marked removed, colliding
with `i`. -/
def specPartnerIdxs (bodies : List Body) (i : ℕ) : List ℕ :=
  (List.range bodies.length).filter
    (fun j =>
      decide (¬j = i ∧ (getB bodies j).markedForRemoval = false ∧
        (getB bodies i).collidesWith (getB bodies j)))

/-- Marking pass of the spec-side collision resolution: set the
`markedForRemoval` flag of every partner index, values taken from the
collection as it stood when the scan of `i` began. -/
def specMark (bodies : List Body) (idxs : List ℕ) (bs : List Body) :
    List Body :=
  idxs.foldl (fun cur j => cur.set j (markBody (getB bodies j))) bs

/-- Modelled from the spec, §4.3 step 1 and its tie-break policy: the
collision resolution of one outer index `i`.  A body already marked removed
is inert; otherwise all colliding unmarked partners are marked and folded
into `i` via `merge` in ascending index order, and the merged body is stored
at slot `i`. -/
def specOuter (coins : ℕ → Bool) (st : List Body × ℕ) (i : ℕ) :
    List Body × ℕ :=
  let current := getB st.1 i
  if current.markedForRemoval then st
  else
    let pIdx := specPartnerIdxs st.1 i
    let partners := pIdx.map (getB st.1)
    let marked := specMark st.1 pIdx st.1
    if partners.length = 0 then (marked, st.2)
    else
      let m := mergeFold coins (current, st.2) partners
      (marked.set i m.1, m.2)

/-- Modelled from the spec, §4.3 step 1: the full collision pass in
ascending outer-index order, followed by dropping all marked bodies. -/
def specCollisionPhase (coins : ℕ → Bool) (bodies : List Body) :
    List Body :=
  (((List.range bodies.length).foldl (specOuter coins) (bodies, 0)).1).filter
    (fun b => !b.markedForRemoval)

/-- Modelled from the spec, §4.3: one tick is collision resolution, then
force recomputation, then one `move()` per survivor, then the tick counter
increment. -/
def specStep (coins : ℕ → Bool) (s : Simulation) : Simulation :=
  { bodies :=
      ((computeForces (specCollisionPhase coins s.bodies)).map Body.move),
    time := s.time + 1 }

/-- Sum of the masses of a collection. -/
def massSum (bs : List Body) : ℝ := (bs.map Body.mass).sum

/-- Mass-weighted average of two vectors, divided by the combined mass, as
the spec words it. -/
def weightedAvg (u v : Vector2) (m1 m2 : ℝ) : Vector2 :=
  ⟨(u.x * m1 + v.x * m2) / (m1 + m2), (u.y * m1 + v.y * m2) / (m1 + m2)⟩

/-!  Claim theorems. -/

/-- C2: `merge(A,B)` returns a body of mass exactly `A.mass + B.mass`, whose
position and displacement are the mass-weighted averages of the parents'
fields divided by the combined mass `A.mass + B.mass`.  The source builds a
fresh `Body` and never writes to either parent, which the purely functional
embedding renders inherently: `Body.merge` is a function of its argument
values. -/
theorem merge_mass_weighted (a b : Body) (coin : Bool) :
    (a.merge b coin).mass = a.mass + b.mass ∧
    (a.merge b coin).massCenter =
      weightedAvg a.massCenter b.massCenter a.mass b.mass ∧
    (a.merge b coin).movement =
      weightedAvg a.movement b.movement a.mass b.mass := by
  refine ⟨rfl, ?_, ?_⟩ <;>
    · simp only [Body.merge, weightedAvg, Vector2.times, Vector2.plus]
      ext <;> · simp only []; ring

/-- C3: `move()` sets the position to `d + p + F·(1/m)`, the displacement to
the new position minus the old position, and changes no other field. -/
theorem move_characterisation (b : Body) :
    b.move.massCenter =
      (b.movement.plus b.massCenter).plus (b.force.times (1.0 / b.mass)) ∧
    b.move.movement = b.move.massCenter.minus b.massCenter ∧
    b.move.mass = b.mass ∧
    b.move.force = b.force ∧
    b.move.markedForRemoval = b.markedForRemoval ∧
    b.move.color = b.color := by
  refine ⟨?_, rfl, rfl, rfl, rfl, rfl⟩
  simp only [Body.move, Vector2.plus, Vector2.times]
  ext <;> · simp only []; ring

/-- Concrete body of mass `400 * SUN_MASS`, used to separate the source's
radius cap from the one the claim states. -/
def heavyBody : Body :=
  { mass := 400 * SUN_MASS, massCenter := Vector2.zero,
    movement := Vector2.zero, force := Vector2.zero,
    markedForRemoval := false, color := BodyColor.yellow }

/-- C5 counterexample: for a body of mass `400 * SUN_MASS` the source's
`radius()` is `0.05 * AU = 7.5e9` (the cap), while the claimed formula with a
cap of 5% of the world width `2 * AU` gives `SUN_RADIUS * 20 = 1.39268e10`. -/
theorem radius_cap_counterexample : heavyBody.radius ≠ radiusClaim heavyBody := by
  have hs : Real.sqrt (heavyBody.mass / SUN_MASS) = 20 := by
    rw [show heavyBody.mass / SUN_MASS = 20 ^ 2 by
      unfold heavyBody SUN_MASS; norm_num]
    exact Real.sqrt_sq (by norm_num)
  unfold Body.radius radiusClaim
  rw [hs]
  rw [min_eq_right (by unfold SUN_RADIUS AU; norm_num),
    min_eq_left (by unfold SUN_RADIUS SIMULATION_WIDTH AU; norm_num)]
  unfold SUN_RADIUS AU
  norm_num

/-- C5 amended: `radius()` equals
`min(SUN_RADIUS * sqrt(mass / SUN_MASS), capRadius)` where `capRadius` is
`0.05 * AU`, i.e. 2.5% of the world width `SIMULATION_WIDTH = 2 * AU` — not
5% of it. -/
theorem radius_cap_amended (b : Body) :
    b.radius =
      min (SUN_RADIUS * Real.sqrt (b.mass / SUN_MASS))
        (0.025 * SIMULATION_WIDTH) := by
  unfold Body.radius SIMULATION_WIDTH
  norm_num
  congr 1
  ring

/-- Empty engine state used by counterexamples. -/
def emptySim : Simulation := { bodies := [], time := 0 }

/-- C6 counterexample: a call of the body-insertion operation whose random
mass draw is `0` produces mass `0 ≤ 0`, yet the body is appended rather than
rejected — the collection does change. -/
theorem insert_no_validation_counterexample :
    getRandomMass 0 ≤ 0 ∧
    placeNewBody emptySim 0 0 0 0 0 BodyColor.yellow ≠ emptySim := by
  constructor
  · unfold getRandomMass; norm_num
  · intro h
    have hlen := congrArg (fun s => s.bodies.length) h
    simp [placeNewBody, emptySim] at hlen

/-- C6 amended: `placeNewBody` performs no mass validation at all.  For
every random mass draw (zero included) it appends one body whose mass is the
drawn `5 * rMass * SUN_MASS`, whose force is zero and whose
`markedForRemoval` flag is `false`, leaving the existing bodies and the tick
counter untouched. -/
theorem insert_appends_unconditionally (s : Simulation)
    (x y rMass r1 r2 : ℝ) (c : BodyColor) :
    (placeNewBody s x y rMass r1 r2 c).bodies.length =
      s.bodies.length + 1 ∧
    (getB (placeNewBody s x y rMass r1 r2 c).bodies s.bodies.length).mass =
      5 * rMass * SUN_MASS ∧
    (getB (placeNewBody s x y rMass r1 r2 c).bodies s.bodies.length).force =
      Vector2.zero ∧
    (getB (placeNewBody s x y rMass r1 r2 c).bodies
        s.bodies.length).markedForRemoval = false ∧
    (∀ j, j < s.bodies.length →
      getB (placeNewBody s x y rMass r1 r2 c).bodies j = getB s.bodies j) ∧
    (placeNewBody s x y rMass r1 r2 c).time = s.time := by
  refine ⟨by simp [placeNewBody], ?_, ?_, ?_, ?_, rfl⟩
  · unfold getB placeNewBody getRandomMass
    rw [List.getD_append_right _ _ _ _ le_rfl]
    simp
  · unfold getB placeNewBody
    rw [List.getD_append_right _ _ _ _ le_rfl]
    simp
  · unfold getB placeNewBody
    rw [List.getD_append_right _ _ _ _ le_rfl]
    simp
  · intro j hj
    unfold getB placeNewBody
    exact List.getD_append _ _ _ _ hj

/-- Formula of `gravitationalForce` written out componentwise. -/
theorem gravitationalForce_eq (a b : Body) :
    a.gravitationalForce b =
      Vector2.mk
        ((b.massCenter.x - a.massCenter.x) /
            Real.sqrt ((b.massCenter.x - a.massCenter.x) ^ 2 +
              (b.massCenter.y - a.massCenter.y) ^ 2) *
          (G * a.mass * b.mass /
            Real.sqrt ((b.massCenter.x - a.massCenter.x) ^ 2 +
              (b.massCenter.y - a.massCenter.y) ^ 2) ^ 2))
        ((b.massCenter.y - a.massCenter.y) /
            Real.sqrt ((b.massCenter.x - a.massCenter.x) ^ 2 +
              (b.massCenter.y - a.massCenter.y) ^ 2) *
          (G * a.mass * b.mass /
            Real.sqrt ((b.massCenter.x - a.massCenter.x) ^ 2 +
              (b.massCenter.y - a.massCenter.y) ^ 2) ^ 2)) := rfl

/-- Formula of `distanceTo` written out. -/
theorem distanceTo_eq (a b : Body) :
    a.distanceTo b =
      Real.sqrt ((b.massCenter.x - a.massCenter.x) ^ 2 +
        (b.massCenter.y - a.massCenter.y) ^ 2) := rfl

/-- Length of a unit vector scaled by a nonnegative factor. -/
theorem unit_times_length (dx dy f : ℝ) (hf : 0 ≤ f)
    (hs : 0 < dx ^ 2 + dy ^ 2) :
    Vector2.length
      ⟨dx / Real.sqrt (dx ^ 2 + dy ^ 2) * f,
       dy / Real.sqrt (dx ^ 2 + dy ^ 2) * f⟩ = f := by
  have hL : 0 < Real.sqrt (dx ^ 2 + dy ^ 2) := Real.sqrt_pos.2 hs
  unfold Vector2.length
  have hexp : (dx / Real.sqrt (dx ^ 2 + dy ^ 2) * f) ^ 2 +
      (dy / Real.sqrt (dx ^ 2 + dy ^ 2) * f) ^ 2 =
      (dx ^ 2 + dy ^ 2) * (f / Real.sqrt (dx ^ 2 + dy ^ 2)) ^ 2 := by
    ring
  rw [show Vector2.x ⟨dx / Real.sqrt (dx ^ 2 + dy ^ 2) * f,
      dy / Real.sqrt (dx ^ 2 + dy ^ 2) * f⟩ =
      dx / Real.sqrt (dx ^ 2 + dy ^ 2) * f from rfl,
    show Vector2.y ⟨dx / Real.sqrt (dx ^ 2 + dy ^ 2) * f,
      dy / Real.sqrt (dx ^ 2 + dy ^ 2) * f⟩ =
      dy / Real.sqrt (dx ^ 2 + dy ^ 2) * f from rfl,
    hexp, Real.sqrt_mul (le_of_lt hs),
    Real.sqrt_sq (div_nonneg hf (le_of_lt hL)), mul_comm,
    div_mul_cancel₀ _ (ne_of_gt hL)]

/-- C7: for non-coincident bodies, the gravitational force of `A` on `B` is
the negation of that of `B` on `A`, and its magnitude is
`G * m1 * m2 / d ^ 2`.  Over the exact real-number model the claim's
"within floating-point tolerance" becomes exact equality. -/
theorem force_antisymm_magnitude (a b : Body)
    (h : a.massCenter ≠ b.massCenter) (ha : 0 ≤ a.mass) (hb : 0 ≤ b.mass) :
    a.gravitationalForce b = (b.gravitationalForce a).times (-1) ∧
    (a.gravitationalForce b).length =
      G * a.mass * b.mass / a.distanceTo b ^ 2 := by
  have hxy : b.massCenter.x - a.massCenter.x ≠ 0 ∨
      b.massCenter.y - a.massCenter.y ≠ 0 := by
    by_contra hc
    push_neg at hc
    apply h
    ext
    · linarith [hc.1]
    · linarith [hc.2]
  have hs : 0 < (b.massCenter.x - a.massCenter.x) ^ 2 +
      (b.massCenter.y - a.massCenter.y) ^ 2 := by
    rcases hxy with hx | hy
    · have h1 := sq_pos_of_ne_zero hx
      nlinarith [sq_nonneg (b.massCenter.y - a.massCenter.y)]
    · have h1 := sq_pos_of_ne_zero hy
      nlinarith [sq_nonneg (b.massCenter.x - a.massCenter.x)]
  have hL : 0 < Real.sqrt ((b.massCenter.x - a.massCenter.x) ^ 2 +
      (b.massCenter.y - a.massCenter.y) ^ 2) := Real.sqrt_pos.2 hs
  have hG : (0 : ℝ) ≤ G := by unfold G; norm_num
  have hswap : (a.massCenter.x - b.massCenter.x) ^ 2 +
      (a.massCenter.y - b.massCenter.y) ^ 2 =
      (b.massCenter.x - a.massCenter.x) ^ 2 +
      (b.massCenter.y - a.massCenter.y) ^ 2 := by ring
  constructor
  · rw [gravitationalForce_eq a b, gravitationalForce_eq b a,
      Vector2.times, hswap]
    ext
    · show _ = (_ * (-1 : ℝ))
      ring
    · show _ = (_ * (-1 : ℝ))
      ring
  · rw [gravitationalForce_eq a b, distanceTo_eq a b]
    exact unit_times_length _ _ _
      (div_nonneg (mul_nonneg (mul_nonneg hG ha) hb) (by positivity)) hs

/-- Concrete body used by the C7 witness. -/
def witnessBodyA : Body :=
  { mass := 2, massCenter := ⟨0, 0⟩, movement := Vector2.zero,
    force := Vector2.zero, markedForRemoval := false,
    color := BodyColor.yellow }

/-- Concrete body used by the C7 witness. -/
def witnessBodyB : Body :=
  { mass := 3, massCenter := ⟨1, 0⟩, movement := Vector2.zero,
    force := Vector2.zero, markedForRemoval := false,
    color := BodyColor.blue }

/-- C7 witness at two concrete non-coincident bodies of masses 2 and 3. -/
theorem force_antisymm_magnitude_witness :
    witnessBodyA.massCenter ≠ witnessBodyB.massCenter ∧
    (witnessBodyA.gravitationalForce witnessBodyB =
        (witnessBodyB.gravitationalForce witnessBodyA).times (-1) ∧
      (witnessBodyA.gravitationalForce witnessBodyB).length =
        G * witnessBodyA.mass * witnessBodyB.mass /
          witnessBodyA.distanceTo witnessBodyB ^ 2) := by
  have hne : witnessBodyA.massCenter ≠ witnessBodyB.massCenter := by
    unfold witnessBodyA witnessBodyB
    intro hc
    have := congrArg Vector2.x hc
    norm_num at this
  exact ⟨hne, force_antisymm_magnitude witnessBodyA witnessBodyB hne
    (by unfold witnessBodyA; norm_num) (by unfold witnessBodyB; norm_num)⟩

/-!  List access helpers. -/

/-- Setting one slot leaves every other slot unchanged. -/
theorem getB_set_ne (bs : List Body) (v : Body) {i j : ℕ} (h : i ≠ j) :
    getB (bs.set i v) j = getB bs j := by
  unfold getB
  simp [List.getD_eq_getElem?_getD, List.getElem?_set_ne h]

/-- Setting an in-bounds slot stores the value there. -/
theorem getB_set_eq (bs : List Body) (v : Body) {i : ℕ}
    (h : i < bs.length) :
    getB (bs.set i v) i = v := by
  unfold getB
  simp [List.getD_eq_getElem?_getD, List.getElem?_set_eq_of_lt _ h]

/-- An invariant carried through a left fold. -/
theorem foldl_inv {α β : Type} (P : α → Prop) (f : α → β → α)
    (l : List β) (init : α) (h0 : P init)
    (hstep : ∀ a b, b ∈ l → P a → P (f a b)) : P (l.foldl f init) := by
  induction l generalizing init with
  | nil => exact h0
  | cons b rest ih =>
    exact ih (f init b) (hstep init b (List.mem_cons_self _ _) h0)
      (fun a c hc ha => hstep a c (List.mem_cons_of_mem _ hc) ha)

/-- Fact that `merge` ignores the removal flag of its second argument. -/
theorem mergeFold_map_markBody (coins : ℕ → Bool) (l : List Body) :
    ∀ start, mergeFold coins start (l.map markBody) =
      mergeFold coins start l := by
  induction l with
  | nil => intro start; rfl
  | cons b rest ih =>
    intro start
    show mergeFold coins (start.1.merge (markBody b) (coins start.2),
      start.2 + 1) (rest.map markBody) = _
    rw [show start.1.merge (markBody b) (coins start.2) =
      start.1.merge b (coins start.2) from rfl]
    exact ih _

/-!  The collision scan: the in-place marking loop of the source equals the
mark-and-collect description of the spec. -/

/-- The condition under which the inner scan acts on index `j`. -/
def scanPred (current : Body) (i : ℕ) (bodies : List Body) (j : ℕ) : Prop :=
  ¬j = i ∧ current.markedForRemoval = false ∧
    (getB bodies j).markedForRemoval = false ∧
    current.collidesWith (getB bodies j)

/-- The inner collision scan, folded over pairwise-distinct indices whose
slots still hold their start-of-scan values, marks exactly the indices
satisfying `scanPred` (evaluated against the start-of-scan collection) and
collects their marked values in index order.  The marks set while the scan
runs never affect a later test, because each index is visited once. -/
theorem scan_foldl (current : Body) (i : ℕ) (bodies : List Body)
    (js : List ℕ) (hnd : js.Nodup) :
    ∀ (bs col : List Body), (∀ j ∈ js, getB bs j = getB bodies j) →
      js.foldl (scanStep current i) (bs, col) =
        (specMark bodies
          (js.filter (fun j => decide (scanPred current i bodies j))) bs,
         col ++
          (js.filter (fun j => decide (scanPred current i bodies j))).map
            (fun j => markBody (getB bodies j))) := by
  induction js with
  | nil =>
    intro bs col hag
    simp [specMark]
  | cons j rest ih =>
    intro bs col hag
    have hj : getB bs j = getB bodies j := hag j (List.mem_cons_self _ _)
    have hnd' : rest.Nodup := (List.nodup_cons.mp hnd).2
    have hjrest : j ∉ rest := (List.nodup_cons.mp hnd).1
    rw [List.foldl_cons]
    by_cases hp : scanPred current i bodies j
    · obtain ⟨h1, h2, h3, h4⟩ := hp
      have hstep : scanStep current i (bs, col) j =
          (bs.set j (markBody (getB bodies j)),
           col ++ [markBody (getB bodies j)]) := by
        unfold scanStep
        simp only [hj]
        rw [if_neg (by simp [h1, h2, h3]), if_pos h4]
      rw [hstep, ih hnd' _ _ (fun j' hj' =>
        (getB_set_ne bs _ (fun he => hjrest (by rw [he]; exact hj'))).trans
          (hag j' (List.mem_cons_of_mem _ hj')))]
      have hdec : decide (scanPred current i bodies j) = true :=
        decide_eq_true ⟨h1, h2, h3, h4⟩
      rw [List.filter_cons]
      simp only [hdec, if_true, List.map_cons]
      simp [specMark, List.append_assoc]
    · have hstep : scanStep current i (bs, col) j = (bs, col) := by
        unfold scanStep
        simp only [hj]
        by_cases hc : j = i ∨ current.markedForRemoval = true ∨
            (getB bodies j).markedForRemoval = true
        · rw [if_pos hc]
        · push_neg at hc
          rw [if_neg (by
              intro hcon
              rcases hcon with h | h | h
              · exact hc.1 h
              · exact hc.2.1 h
              · exact hc.2.2 h),
            if_neg (fun hcol => hp ⟨hc.1,
              Bool.not_eq_true _ ▸ (Bool.eq_false_iff.mpr hc.2.1),
              Bool.eq_false_iff.mpr hc.2.2, hcol⟩)]
      have hdec : decide (scanPred current i bodies j) = false :=
        decide_eq_false hp
      rw [hstep, List.filter_cons_of_neg (by simp [hdec]),
        ih hnd' _ _ (fun j' hj' => hag j' (List.mem_cons_of_mem _ hj'))]

/-- One outer collision iteration of the source equals the spec's
description of it. -/
theorem codeOuter_eq_specOuter (coins : ℕ → Bool) (st : List Body × ℕ)
    (i : ℕ) : codeOuter coins st i = specOuter coins st i := by
  obtain ⟨bodies, k⟩ := st
  have hscan := scan_foldl (getB bodies i) i bodies
    (List.range bodies.length) (List.nodup_range _) bodies []
    (fun _ _ => rfl)
  by_cases hm : (getB bodies i).markedForRemoval = true
  · have hfil : (List.range bodies.length).filter
        (fun j => decide (scanPred (getB bodies i) i bodies j)) = [] := by
      apply List.filter_eq_nil_iff.mpr
      intro j _
      simp only [decide_eq_true_eq]
      intro hpred
      unfold scanPred at hpred
      rw [hm] at hpred
      exact absurd hpred.2.1 (by simp)
    rw [hfil] at hscan
    simp only [specMark, List.foldl_nil, List.map_nil,
      List.append_nil] at hscan
    simp only [codeOuter, specOuter]
    rw [hscan]
    simp [hm]
  · have hm' : (getB bodies i).markedForRemoval = false :=
      Bool.eq_false_iff.mpr hm
    have hfil : (List.range bodies.length).filter
        (fun j => decide (scanPred (getB bodies i) i bodies j)) =
        specPartnerIdxs bodies i := by
      unfold specPartnerIdxs
      apply List.filter_congr
      intro j _
      apply decide_eq_decide.mpr
      unfold scanPred
      constructor
      · rintro ⟨a, _, c, d⟩; exact ⟨a, c, d⟩
      · rintro ⟨a, c, d⟩; exact ⟨a, hm', c, d⟩
    rw [hfil] at hscan
    simp only [codeOuter, specOuter]
    rw [hscan]
    by_cases hP : specPartnerIdxs bodies i = []
    · simp [hP, hm', specMark]
    · have hmark : (specPartnerIdxs bodies i).map
          (fun j => markBody (getB bodies j)) =
          ((specPartnerIdxs bodies i).map (getB bodies)).map markBody := by
        rw [List.map_map]
        rfl
      simp only [List.nil_append, hm', Bool.false_eq_true, if_false,
        List.length_map]
      rw [if_pos (List.length_pos.mpr hP), if_neg
        (fun hc => hP (List.length_eq_zero.mp hc))]
      rw [hmark, mergeFold_map_markBody]

/-- The whole collision pass of the source equals the spec's description. -/
theorem collisionPhase_eq_spec (coins : ℕ → Bool) (bodies : List Body) :
    collisionPhase coins bodies = specCollisionPhase coins bodies := by
  unfold collisionPhase specCollisionPhase
  rw [show (codeOuter coins) = (specOuter coins) from
    funext (fun st => funext (fun i => codeOuter_eq_specOuter coins st i))]

/-- C1: one `step()` of the source performs exactly the claimed algorithm in
the claimed order — the ascending-index collision-resolution pass in which an
unmarked outer body absorbs, via `merge` in ascending partner order, every
unmarked colliding partner (a body marked removed earlier being inert), then
the drop of all marked bodies with survivors keeping their slots, then force
recomputation, then one `move()` per survivor, then the tick increment. -/
theorem step_is_claimed_algorithm (coins : ℕ → Bool) (s : Simulation) :
    calculateOneTick coins s = specStep coins s := by
  unfold calculateOneTick specStep
  rw [collisionPhase_eq_spec]

/-- C8: on an engine with an empty body collection, any number of `step()`
calls is a safe no-op on the collection (the functions are total, so no
failure is possible in the model) and the tick counter is the only state
that changes. -/
theorem step_empty_collection (coins : ℕ → Bool) (n t : ℕ) :
    stepN coins n { bodies := [], time := t } =
      { bodies := [], time := t + n } := by
  induction n generalizing t with
  | zero => rfl
  | succ m ih =>
    have hone : calculateOneTick coins { bodies := [], time := t } =
        { bodies := [], time := t + 1 } := by
      unfold calculateOneTick collisionPhase computeForces
      simp
    show stepN coins m (calculateOneTick coins { bodies := [], time := t }) = _
    rw [hone, ih (t + 1)]
    congr 1
    omega

/-!  Mass accounting through the collision pass. -/

/-- Weighted sum of a function over a collection. -/
def wSum (f : Body → ℝ) (bs : List Body) : ℝ := (bs.map f).sum

/-- Mass of a body counted only while it is unmarked. -/
def unmMass (b : Body) : ℝ := if b.markedForRemoval then 0 else b.mass

/-- Marked bodies contribute nothing. -/
theorem unmMass_markBody (b : Body) : unmMass (markBody b) = 0 := by
  unfold unmMass markBody
  simp

/-- Unmarked bodies contribute their mass. -/
theorem unmMass_of_unmarked (b : Body) (h : b.markedForRemoval = false) :
    unmMass b = b.mass := by
  unfold unmMass
  rw [h]
  simp

/-- Replacing one in-bounds slot changes a weighted sum by the difference of
the weights. -/
theorem wSum_set (f : Body → ℝ) :
    ∀ (bs : List Body) (j : ℕ) (v : Body), j < bs.length →
      wSum f (bs.set j v) = wSum f bs - f (getB bs j) + f v := by
  intro bs
  induction bs with
  | nil => intro j v hj; simp at hj
  | cons b rest ih =>
    intro j v hj
    cases j with
    | zero =>
      show wSum f (v :: rest) = _
      rw [show getB (b :: rest) 0 = b from rfl]
      show f v + wSum f rest = f b + wSum f rest - f b + f v
      ring
    | succ m =>
      have hm : m < rest.length := Nat.lt_of_succ_lt_succ hj
      show wSum f (b :: rest.set m v) = _
      rw [show getB (b :: rest) (m + 1) = getB rest m from rfl]
      show f b + wSum f (rest.set m v) = f b + wSum f rest - f (getB rest m) + f v
      rw [ih m v hm]
      ring

/-- Sum of pointwise negations. -/
theorem sum_map_neg (l : List ℕ) (g : ℕ → ℝ) :
    (l.map (fun j => -g j)).sum = -(l.map g).sum := by
  induction l with
  | nil => simp
  | cons j rest ih =>
    rw [List.map_cons, List.sum_cons, List.map_cons, List.sum_cons, ih]
    ring

/-- Fact that `specMark` keeps the collection length. -/
theorem specMark_length (bodies : List Body) :
    ∀ (idxs : List ℕ) (bs : List Body),
      (specMark bodies idxs bs).length = bs.length := by
  intro idxs
  induction idxs with
  | nil => intro bs; rfl
  | cons j rest ih =>
    intro bs
    show (specMark bodies rest (bs.set j (markBody (getB bodies j)))).length = _
    rw [ih, List.length_set]

/-- Fact that `specMark` leaves slots outside the marked index set unchanged. -/
theorem getB_specMark_notMem (bodies : List Body) :
    ∀ (idxs : List ℕ) (bs : List Body) (i : ℕ), i ∉ idxs →
      getB (specMark bodies idxs bs) i = getB bs i := by
  intro idxs
  induction idxs with
  | nil => intro bs i _; rfl
  | cons j rest ih =>
    intro bs i hi
    show getB (specMark bodies rest (bs.set j (markBody (getB bodies j)))) i = _
    rw [ih _ _ (fun hc => hi (List.mem_cons_of_mem _ hc)),
      getB_set_ne bs _ (fun he => hi (by rw [← he]; exact List.mem_cons_self _ _))]

/-- Effect of `specMark` on a weighted sum, for pairwise-distinct in-bounds
indices whose slots still hold the reference collection's values. -/
theorem wSum_specMark (f : Body → ℝ) (bodies : List Body) :
    ∀ (idxs : List ℕ) (bs : List Body), idxs.Nodup →
      (∀ j ∈ idxs, j < bs.length ∧ getB bs j = getB bodies j) →
      wSum f (specMark bodies idxs bs) =
        wSum f bs + (idxs.map (fun j => f (markBody (getB bodies j)) -
          f (getB bodies j))).sum := by
  intro idxs
  induction idxs with
  | nil => intro bs _ _; simp [specMark, wSum]
  | cons j rest ih =>
    intro bs hnd hmem
    have hj := hmem j (List.mem_cons_self _ _)
    show wSum f (specMark bodies rest
      (bs.set j (markBody (getB bodies j)))) = _
    rw [ih _ (List.nodup_cons.mp hnd).2 (fun j' hj' =>
      ⟨by rw [List.length_set]
          exact (hmem j' (List.mem_cons_of_mem _ hj')).1,
       by rw [getB_set_ne bs _ (fun he =>
            (List.nodup_cons.mp hnd).1 (by rw [he]; exact hj'))]
          exact (hmem j' (List.mem_cons_of_mem _ hj')).2⟩)]
    rw [wSum_set f bs j _ hj.1, hj.2, List.map_cons, List.sum_cons]
    ring

/-- Mass of a merge chain: the start mass plus all partner masses. -/
theorem mergeFold_mass (coins : ℕ → Bool) :
    ∀ (l : List Body) (start : Body × ℕ),
      (mergeFold coins start l).1.mass =
        start.1.mass + (l.map Body.mass).sum := by
  intro l
  induction l with
  | nil => intro start; simp [mergeFold]
  | cons b rest ih =>
    intro start
    show (mergeFold coins (start.1.merge b (coins start.2), start.2 + 1)
      rest).1.mass = _
    rw [ih, List.map_cons, List.sum_cons,
      show (start.1.merge b (coins start.2)).mass =
        start.1.mass + b.mass from rfl]
    ring

/-- A nonempty merge chain ends in a freshly built body, which is
unmarked. -/
theorem mergeFold_marked (coins : ℕ → Bool) :
    ∀ (l : List Body) (start : Body × ℕ), l ≠ [] →
      (mergeFold coins start l).1.markedForRemoval = false := by
  intro l
  induction l with
  | nil => intro start h; exact absurd rfl h
  | cons b rest ih =>
    intro start _
    cases rest with
    | nil => rfl
    | cons c rest2 => exact ih _ (by simp)

/-- One spec-side outer collision iteration conserves the unmarked mass and
the collection length. -/
theorem specOuter_unmSum (coins : ℕ → Bool) (st : List Body × ℕ) (i : ℕ)
    (hi : i < st.1.length) :
    wSum unmMass (specOuter coins st i).1 = wSum unmMass st.1 ∧
    (specOuter coins st i).1.length = st.1.length := by
  obtain ⟨bodies, k⟩ := st
  by_cases hm : (getB bodies i).markedForRemoval = true
  · constructor <;> simp [specOuter, hm]
  · have hm' : (getB bodies i).markedForRemoval = false :=
      Bool.eq_false_iff.mpr hm
    have hnd : (specPartnerIdxs bodies i).Nodup :=
      (List.nodup_range _).filter _
    have hmem : ∀ j ∈ specPartnerIdxs bodies i,
        j < bodies.length ∧ ¬j = i ∧
          (getB bodies j).markedForRemoval = false := by
      intro j hj
      have h1 := List.mem_filter.mp hj
      have h2 := of_decide_eq_true h1.2
      exact ⟨List.mem_range.mp h1.1, h2.1, h2.2.1⟩
    by_cases hP : specPartnerIdxs bodies i = []
    · constructor <;> simp [specOuter, hm', hP, specMark]
    · have hres : specOuter coins (bodies, k) i =
          ((specMark bodies (specPartnerIdxs bodies i) bodies).set i
            (mergeFold coins (getB bodies i, k)
              ((specPartnerIdxs bodies i).map (getB bodies))).1,
           (mergeFold coins (getB bodies i, k)
              ((specPartnerIdxs bodies i).map (getB bodies))).2) := by
        simp only [specOuter, hm', Bool.false_eq_true, if_false,
          List.length_map]
        rw [if_neg (fun hc => hP (List.length_eq_zero.mp hc))]
      have hsum : wSum unmMass
          (specMark bodies (specPartnerIdxs bodies i) bodies) =
          wSum unmMass bodies -
            ((specPartnerIdxs bodies i).map
              (fun j => (getB bodies j).mass)).sum := by
        rw [wSum_specMark unmMass bodies _ _ hnd
          (fun j hj => ⟨(hmem j hj).1, rfl⟩)]
        rw [List.map_congr_left (fun j hj =>
          show unmMass (markBody (getB bodies j)) -
              unmMass (getB bodies j) = -((getB bodies j).mass) from by
            rw [unmMass_markBody, unmMass_of_unmarked _ (hmem j hj).2.2]
            ring)]
        rw [sum_map_neg]
        ring
      have hpne : (specPartnerIdxs bodies i).map (getB bodies) ≠ [] := by
        simp [hP]
      have hInotin : i ∉ specPartnerIdxs bodies i :=
        fun hin => (hmem i hin).2.1 rfl
      have hgetI : getB (specMark bodies (specPartnerIdxs bodies i) bodies)
          i = getB bodies i := getB_specMark_notMem bodies _ _ _ hInotin
      have hmassM : (mergeFold coins (getB bodies i, k)
          ((specPartnerIdxs bodies i).map (getB bodies))).1.mass =
          (getB bodies i).mass +
            ((specPartnerIdxs bodies i).map
              (fun j => (getB bodies j).mass)).sum := by
        rw [mergeFold_mass]
        congr 1
        rw [List.map_map]
        rfl
      have hmarkM : (mergeFold coins (getB bodies i, k)
          ((specPartnerIdxs bodies i).map
            (getB bodies))).1.markedForRemoval = false :=
        mergeFold_marked coins _ _ hpne
      constructor
      · rw [hres]
        show wSum unmMass ((specMark bodies (specPartnerIdxs bodies i)
          bodies).set i _) = _
        rw [wSum_set unmMass _ i _ (by rw [specMark_length]; exact hi),
          hsum, hgetI, unmMass_of_unmarked _ hm',
          unmMass_of_unmarked _ hmarkM, hmassM]
        ring
      · rw [hres]
        show ((specMark bodies (specPartnerIdxs bodies i) bodies).set i
          _).length = _
        rw [List.length_set, specMark_length]

/-- Dropping the marked bodies realises the unmarked mass. -/
theorem massSum_filter_unmarked (bs : List Body) :
    massSum (bs.filter (fun b => !b.markedForRemoval)) = wSum unmMass bs := by
  induction bs with
  | nil => rfl
  | cons b rest ih =>
    by_cases hb : b.markedForRemoval = true
    · rw [show (b :: rest).filter (fun b => !b.markedForRemoval) =
        rest.filter (fun b => !b.markedForRemoval) from by
          simp [List.filter_cons, hb]]
      rw [ih]
      show _ = unmMass b + wSum unmMass rest
      rw [show unmMass b = 0 from by unfold unmMass; rw [hb]; simp]
      ring
    · have hb' : b.markedForRemoval = false := Bool.eq_false_iff.mpr hb
      rw [show (b :: rest).filter (fun b => !b.markedForRemoval) =
        b :: rest.filter (fun b => !b.markedForRemoval) from by
          simp [List.filter_cons, hb']]
      show b.mass + massSum (rest.filter _) = _
      rw [ih]
      show _ = unmMass b + wSum unmMass rest
      rw [unmMass_of_unmarked _ hb']

/-- On an all-unmarked collection, the unmarked mass is the total mass. -/
theorem wSum_unmMass_of_unmarked (bs : List Body)
    (h : ∀ b ∈ bs, b.markedForRemoval = false) :
    wSum unmMass bs = massSum bs := by
  unfold wSum massSum
  rw [List.map_congr_left (fun b hb =>
    show unmMass b = Body.mass b from by
      unfold unmMass
      rw [h b hb]
      simp)]

/-!  The force loop only writes the `force` field. -/

/-- Equality of all fields except `force`. -/
def sameExceptForce (a b : Body) : Prop :=
  a.mass = b.mass ∧ a.massCenter = b.massCenter ∧ a.movement = b.movement ∧
    a.markedForRemoval = b.markedForRemoval ∧ a.color = b.color

/-- Relation `sameExceptForce` is reflexive. -/
theorem sameExceptForce_refl (a : Body) : sameExceptForce a a :=
  ⟨rfl, rfl, rfl, rfl, rfl⟩

/-- Relation `sameExceptForce` is transitive. -/
theorem sameExceptForce_trans {a b c : Body} (h1 : sameExceptForce a b)
    (h2 : sameExceptForce b c) : sameExceptForce a c :=
  ⟨h1.1.trans h2.1, h1.2.1.trans h2.2.1, h1.2.2.1.trans h2.2.2.1,
    h1.2.2.2.1.trans h2.2.2.2.1, h1.2.2.2.2.trans h2.2.2.2.2⟩

/-- Overwriting the force leaves the other fields alone. -/
theorem sameExceptForce_force_update (b : Body) (f : Vector2) :
    sameExceptForce { b with force := f } b :=
  ⟨rfl, rfl, rfl, rfl, rfl⟩

/-- The pointwise state of the force loop relative to its input. -/
def forceLoopInv (bs : List Body) (cur : List Body) : Prop :=
  cur.length = bs.length ∧
    ∀ j, sameExceptForce (getB cur j) (getB bs j)

/-- Setting a slot to a value that differs from its current content only in
the force preserves the loop invariant. -/
theorem forceLoopInv_set (bs cur : List Body) (i : ℕ) (v : Body)
    (hP : forceLoopInv bs cur) (hv : sameExceptForce v (getB cur i)) :
    forceLoopInv bs (cur.set i v) := by
  constructor
  · rw [List.length_set]; exact hP.1
  · intro j
    by_cases hij : i = j
    · subst hij
      by_cases hlt : i < cur.length
      · rw [getB_set_eq cur v hlt]
        exact sameExceptForce_trans hv (hP.2 i)
      · rw [show cur.set i v = cur from
          List.set_eq_of_length_le (Nat.le_of_not_lt hlt)]
        exact hP.2 i
    · rw [getB_set_ne cur v hij]
      exact hP.2 j

/-- The force-accumulation pass keeps every field except `force` of every
slot, and the length. -/
theorem computeForces_preserves (bs : List Body) :
    forceLoopInv bs (computeForces bs) := by
  unfold computeForces
  apply foldl_inv (forceLoopInv bs)
  · exact ⟨rfl, fun j => sameExceptForce_refl _⟩
  · intro cur i _ hP
    unfold forceStep
    apply foldl_inv (forceLoopInv bs)
    · exact forceLoopInv_set bs cur i _ hP
        (sameExceptForce_force_update _ _)
    · intro cur2 j _ hP2
      by_cases hji : j = i
      · rw [if_pos hji]; exact hP2
      · rw [if_neg hji]
        exact forceLoopInv_set bs cur2 i _ hP2
          (sameExceptForce_force_update _ _)

/-- Weighted sums agree on collections that agree pointwise under the
weight. -/
theorem wSum_congr_pointwise (f : Body → ℝ) :
    ∀ (bs cs : List Body), bs.length = cs.length →
      (∀ j, f (getB bs j) = f (getB cs j)) → wSum f bs = wSum f cs := by
  intro bs
  induction bs with
  | nil =>
    intro cs hlen _
    cases cs with
    | nil => rfl
    | cons c cs2 => simp at hlen
  | cons b rest ih =>
    intro cs hlen h
    cases cs with
    | nil => simp at hlen
    | cons c cs2 =>
      show f b + wSum f rest = f c + wSum f cs2
      rw [show f b = f c from h 0,
        ih cs2 (by simpa using hlen) (fun j => h (j + 1))]

/-- Fact that `move()` does not change the mass, so integration keeps the total. -/
theorem massSum_map_move (bs : List Body) :
    massSum (bs.map Body.move) = massSum bs := by
  unfold massSum
  rw [List.map_map]
  rfl

/-- Force accumulation keeps the total mass. -/
theorem massSum_computeForces (bs : List Body) :
    massSum (computeForces bs) = massSum bs := by
  have h := computeForces_preserves bs
  exact wSum_congr_pointwise Body.mass _ _ h.1 (fun j => (h.2 j).1)

/-- C9: `step()` conserves the total mass of the collection whenever, as the
per-tick invariant guarantees, no body is marked at the start of the tick:
every dropped body's mass is folded into its absorber, and neither the force
pass nor `move()` touches a mass. -/
theorem step_conserves_mass (coins : ℕ → Bool) (s : Simulation)
    (h : ∀ b ∈ s.bodies, b.markedForRemoval = false) :
    massSum (calculateOneTick coins s).bodies = massSum s.bodies := by
  show massSum ((computeForces (collisionPhase coins s.bodies)).map
    Body.move) = _
  rw [massSum_map_move, massSum_computeForces, collisionPhase_eq_spec]
  unfold specCollisionPhase
  rw [massSum_filter_unmarked]
  have hfold := foldl_inv
    (fun st : List Body × ℕ => wSum unmMass st.1 = wSum unmMass s.bodies ∧
      st.1.length = s.bodies.length)
    (specOuter coins) (List.range s.bodies.length) (s.bodies, 0)
    ⟨rfl, rfl⟩
    (fun st i hi hP => by
      have hilt : i < st.1.length := by
        rw [hP.2]; exact List.mem_range.mp hi
      have hstep := specOuter_unmSum coins st i hilt
      exact ⟨hstep.1.trans hP.1, hstep.2.trans hP.2⟩)
  rw [hfold.1, wSum_unmMass_of_unmarked _ h]

/-- Two-body state used by the C9 and C10 witnesses: both bodies have mass
`SUN_MASS`, sit one `AU` apart and are unmarked. -/
def twoBodySim : Simulation :=
  { bodies :=
      [{ mass := SUN_MASS, massCenter := ⟨0, 0⟩, movement := Vector2.zero,
         force := Vector2.zero, markedForRemoval := false,
         color := BodyColor.yellow },
       { mass := SUN_MASS, massCenter := ⟨AU, 0⟩, movement := Vector2.zero,
         force := Vector2.zero, markedForRemoval := false,
         color := BodyColor.blue }],
    time := 0 }

/-- C9 witness: mass conservation applied to the concrete two-body state. -/
theorem step_conserves_mass_witness :
    (∀ b ∈ twoBodySim.bodies, b.markedForRemoval = false) ∧
    massSum (calculateOneTick (fun _ => true) twoBodySim).bodies =
      massSum twoBodySim.bodies := by
  have hunm : ∀ b ∈ twoBodySim.bodies, b.markedForRemoval = false := by
    intro b hb
    simp only [twoBodySim, List.mem_cons, List.not_mem_nil, or_false] at hb
    rcases hb with hb | hb <;> rw [hb]
  exact ⟨hunm, step_conserves_mass (fun _ => true) twoBodySim hunm⟩

/-- In-bounds access yields a member of the list. -/
theorem getB_mem (bs : List Body) (i : ℕ) (h : i < bs.length) :
    getB bs i ∈ bs := by
  unfold getB
  rw [List.getD_eq_getElem _ _ h]
  exact List.getElem_mem h

/-- In-bounds access commutes with the integration map. -/
theorem getB_map_move (bs : List Body) (k : ℕ) (h : k < bs.length) :
    getB (bs.map Body.move) k = Body.move (getB bs k) := by
  unfold getB
  rw [List.getD_eq_getElem _ _ (by rw [List.length_map]; exact h),
    List.getD_eq_getElem _ _ h, List.getElem_map]

/-- When nothing collides, the whole spec-side collision fold is the
identity. -/
theorem specFold_no_collision (coins : ℕ → Bool) (s : Simulation)
    (hunm : ∀ b ∈ s.bodies, b.markedForRemoval = false)
    (hnc : ∀ i j, i < s.bodies.length → j < s.bodies.length → i ≠ j →
      ¬(getB s.bodies i).collidesWith (getB s.bodies j)) :
    (List.range s.bodies.length).foldl (specOuter coins) (s.bodies, 0) =
      (s.bodies, 0) := by
  apply foldl_inv (fun st => st = (s.bodies, 0)) _ _ _ rfl
  intro st i hi hP
  subst hP
  have hilt : i < s.bodies.length := List.mem_range.mp hi
  have hm' : (getB s.bodies i).markedForRemoval = false :=
    hunm _ (getB_mem _ _ hilt)
  have hfil : specPartnerIdxs s.bodies i = [] := by
    apply List.filter_eq_nil_iff.mpr
    intro j hj
    simp only [decide_eq_true_eq]
    rintro ⟨hne, _, hcol⟩
    exact hnc i j hilt (List.mem_range.mp hj) (fun he => hne he.symm) hcol
  show specOuter coins (s.bodies, 0) i = _
  simp [specOuter, hm', hfil, specMark]

/-- C10: on a tick at whose start no two distinct bodies collide (and no
body is marked, as the per-tick invariant guarantees), `step()` drops no
body and leaves every body's mass and colour unchanged; only position,
displacement and force are recomputed. -/
theorem step_no_collision_frame (coins : ℕ → Bool) (s : Simulation)
    (hunm : ∀ b ∈ s.bodies, b.markedForRemoval = false)
    (hnc : ∀ i j, i < s.bodies.length → j < s.bodies.length → i ≠ j →
      ¬(getB s.bodies i).collidesWith (getB s.bodies j)) :
    (calculateOneTick coins s).bodies.length = s.bodies.length ∧
    ∀ k, k < s.bodies.length →
      (getB (calculateOneTick coins s).bodies k).mass =
        (getB s.bodies k).mass ∧
      (getB (calculateOneTick coins s).bodies k).color =
        (getB s.bodies k).color := by
  have hphase : collisionPhase coins s.bodies = s.bodies := by
    rw [collisionPhase_eq_spec]
    unfold specCollisionPhase
    rw [specFold_no_collision coins s hunm hnc]
    apply List.filter_eq_self.mpr
    intro b hb
    rw [hunm b hb]
    rfl
  have hbodies : (calculateOneTick coins s).bodies =
      (computeForces s.bodies).map Body.move := by
    show (computeForces (collisionPhase coins s.bodies)).map Body.move = _
    rw [hphase]
  constructor
  · rw [hbodies, List.length_map, (computeForces_preserves s.bodies).1]
  · intro k hk
    have hlen : k < (computeForces s.bodies).length := by
      rw [(computeForces_preserves s.bodies).1]
      exact hk
    rw [hbodies, getB_map_move _ _ hlen]
    exact ⟨((computeForces_preserves s.bodies).2 k).1,
      ((computeForces_preserves s.bodies).2 k).2.2.2.2⟩

/-- C10 witness: the two `SUN_MASS` bodies one `AU` apart do not collide
(sum of radii `2 * SUN_RADIUS` is far below `AU`), and one `step()` keeps
both bodies with their masses and colours. -/
theorem step_no_collision_frame_witness :
    (∀ b ∈ twoBodySim.bodies, b.markedForRemoval = false) ∧
    (∀ i j, i < twoBodySim.bodies.length → j < twoBodySim.bodies.length →
      i ≠ j → ¬(getB twoBodySim.bodies i).collidesWith
        (getB twoBodySim.bodies j)) ∧
    ((calculateOneTick (fun _ => false) twoBodySim).bodies.length =
        twoBodySim.bodies.length ∧
      ∀ k, k < twoBodySim.bodies.length →
        (getB (calculateOneTick (fun _ => false) twoBodySim).bodies k).mass =
          (getB twoBodySim.bodies k).mass ∧
        (getB (calculateOneTick (fun _ => false) twoBodySim).bodies
            k).color = (getB twoBodySim.bodies k).color) := by
  have hunm : ∀ b ∈ twoBodySim.bodies, b.markedForRemoval = false := by
    intro b hb
    simp only [twoBodySim, List.mem_cons, List.not_mem_nil, or_false] at hb
    rcases hb with hb | hb <;> rw [hb]
  have hrad0 : (getB twoBodySim.bodies 0).radius = SUN_RADIUS := by
    show min (SUN_RADIUS * Real.sqrt (SUN_MASS / SUN_MASS)) (0.05 * AU) = _
    rw [div_self (by unfold SUN_MASS; norm_num), Real.sqrt_one, mul_one]
    exact min_eq_left (by unfold SUN_RADIUS AU; norm_num)
  have hrad1 : (getB twoBodySim.bodies 1).radius = SUN_RADIUS := by
    show min (SUN_RADIUS * Real.sqrt (SUN_MASS / SUN_MASS)) (0.05 * AU) = _
    rw [div_self (by unfold SUN_MASS; norm_num), Real.sqrt_one, mul_one]
    exact min_eq_left (by unfold SUN_RADIUS AU; norm_num)
  have hd01 : (getB twoBodySim.bodies 0).distanceTo
      (getB twoBodySim.bodies 1) = AU := by
    show Real.sqrt ((AU - 0) ^ 2 + (0 - 0) ^ 2) = AU
    rw [show (AU - 0) ^ 2 + (0 - 0) ^ 2 = AU ^ 2 by ring]
    exact Real.sqrt_sq (by unfold AU; norm_num)
  have hd10 : (getB twoBodySim.bodies 1).distanceTo
      (getB twoBodySim.bodies 0) = AU := by
    show Real.sqrt ((0 - AU) ^ 2 + (0 - 0) ^ 2) = AU
    rw [show (0 - AU) ^ 2 + (0 - 0) ^ 2 = AU ^ 2 by ring]
    exact Real.sqrt_sq (by unfold AU; norm_num)
  have hn01 : ¬(getB twoBodySim.bodies 0).collidesWith
      (getB twoBodySim.bodies 1) := by
    unfold Body.collidesWith
    rw [hd01, hrad0, hrad1]
    exact not_lt.mpr (by unfold AU SUN_RADIUS; norm_num)
  have hn10 : ¬(getB twoBodySim.bodies 1).collidesWith
      (getB twoBodySim.bodies 0) := by
    unfold Body.collidesWith
    rw [hd10, hrad1, hrad0]
    exact not_lt.mpr (by unfold AU SUN_RADIUS; norm_num)
  have hnc : ∀ i j, i < twoBodySim.bodies.length →
      j < twoBodySim.bodies.length → i ≠ j →
      ¬(getB twoBodySim.bodies i).collidesWith (getB twoBodySim.bodies j) := by
    intro i j hi hj hne
    rw [show twoBodySim.bodies.length = 2 from rfl] at hi hj
    interval_cases i <;> interval_cases j <;>
      first
        | exact absurd rfl hne
        | exact hn01
        | exact hn10
  exact ⟨hunm, hnc,
    step_no_collision_frame (fun _ => false) twoBodySim hunm hnc⟩

/-!  A tick in which the collision pass hands two exactly coincident
survivors to the force loop.

Bodies 2 and 3 both collide with body 1 and are folded into it; the merged
body lands exactly on body 0, which collided with none of the three original
bodies.  The merged body is created after body 0's outer iteration has
already run, so the pass never compares them again, and the force loop then
evaluates `gravitationalForce` at zero separation (`NaN` in the source). -/

/-- Colour coins for the C4 evaluation (colours are irrelevant to it). -/
def c4coins : ℕ → Bool := fun _ => true

/-- C4 body 0: one solar mass sitting at the future merge centroid. -/
def c4b0 : Body :=
  ⟨SUN_MASS, ⟨3e9, 8e9⟩, Vector2.zero, Vector2.zero, false,
    BodyColor.yellow⟩

/-- C4 body 1: the absorber. -/
def c4b1 : Body :=
  ⟨400 * SUN_MASS, ⟨12e9, 8e9⟩, Vector2.zero, Vector2.zero, false,
    BodyColor.yellow⟩

/-- C4 body 2: first absorbed partner. -/
def c4b2 : Body :=
  ⟨600 * SUN_MASS, ⟨0, 16e9⟩, Vector2.zero, Vector2.zero, false,
    BodyColor.blue⟩

/-- C4 body 3: second absorbed partner. -/
def c4b3 : Body :=
  ⟨600 * SUN_MASS, ⟨0, 0⟩, Vector2.zero, Vector2.zero, false,
    BodyColor.red⟩

/-- The C4 start-of-tick collection. -/
def c4Bodies : List Body := [c4b0, c4b1, c4b2, c4b3]

/-- Intermediate merge of bodies 1 and 2. -/
def c4m1 : Body :=
  ⟨1000 * SUN_MASS, ⟨4.8e9, 12.8e9⟩, ⟨0, 0⟩, Vector2.zero, false,
    BodyColor.yellow⟩

/-- Final merged body: slot 1 after absorbing bodies 2 and 3; its centre is
exactly body 0's centre. -/
def c4Merged : Body :=
  ⟨1600 * SUN_MASS, ⟨3e9, 8e9⟩, ⟨0, 0⟩, Vector2.zero, false,
    BodyColor.yellow⟩

/-- The collection at the end of the marking/merging loops, before the
filter. -/
def c4PostList : List Body := [c4b0, c4Merged, markBody c4b2, markBody c4b3]

/-- The collision pass of the C4 state leaves exactly body 0 and the merged
body, at identical centres. -/
theorem c4_collision_phase_eval :
    collisionPhase c4coins c4Bodies = [c4b0, c4Merged] := by
  have hradb0 : c4b0.radius = SUN_RADIUS := by
    unfold Body.radius
    rw [show c4b0.mass / SUN_MASS = 1 from by unfold c4b0 SUN_MASS; norm_num,
      Real.sqrt_one, mul_one]
    exact min_eq_left (by unfold SUN_RADIUS AU; norm_num)
  have hradb1 : c4b1.radius = 0.05 * AU := by
    unfold Body.radius
    rw [show c4b1.mass / SUN_MASS = 20 ^ 2 from by
        unfold c4b1 SUN_MASS; norm_num,
      Real.sqrt_sq (by norm_num)]
    exact min_eq_right (by unfold SUN_RADIUS AU; norm_num)
  have h24b2 : (24 : ℝ) ≤ Real.sqrt (c4b2.mass / SUN_MASS) := by
    rw [show c4b2.mass / SUN_MASS = 600 from by
      unfold c4b2 SUN_MASS; norm_num]
    exact (Real.le_sqrt (by norm_num) (by norm_num)).mpr (by norm_num)
  have hradb2 : c4b2.radius = 0.05 * AU := by
    unfold Body.radius
    apply min_eq_right
    unfold SUN_RADIUS AU
    nlinarith [h24b2]
  have h24b3 : (24 : ℝ) ≤ Real.sqrt (c4b3.mass / SUN_MASS) := by
    rw [show c4b3.mass / SUN_MASS = 600 from by
      unfold c4b3 SUN_MASS; norm_num]
    exact (Real.le_sqrt (by norm_num) (by norm_num)).mpr (by norm_num)
  have hradb3 : c4b3.radius = 0.05 * AU := by
    unfold Body.radius
    apply min_eq_right
    unfold SUN_RADIUS AU
    nlinarith [h24b3]
  have hc01 : ¬c4b0.collidesWith c4b1 := by
    unfold Body.collidesWith
    rw [distanceTo_eq, hradb0, hradb1,
      show (c4b1.massCenter.x - c4b0.massCenter.x) ^ 2 +
        (c4b1.massCenter.y - c4b0.massCenter.y) ^ 2 = (9e9 : ℝ) ^ 2 from by
          unfold c4b0 c4b1; norm_num,
      Real.sqrt_sq (by norm_num)]
    exact not_lt.mpr (by unfold SUN_RADIUS AU; norm_num)
  have hc02 : ¬c4b0.collidesWith c4b2 := by
    unfold Body.collidesWith
    rw [distanceTo_eq, hradb0, hradb2,
      show (c4b2.massCenter.x - c4b0.massCenter.x) ^ 2 +
        (c4b2.massCenter.y - c4b0.massCenter.y) ^ 2 = (73e18 : ℝ) from by
          unfold c4b0 c4b2; norm_num]
    exact not_lt.mpr ((Real.le_sqrt (by unfold SUN_RADIUS AU; norm_num)
      (by norm_num)).mpr (by unfold SUN_RADIUS AU; norm_num))
  have hc03 : ¬c4b0.collidesWith c4b3 := by
    unfold Body.collidesWith
    rw [distanceTo_eq, hradb0, hradb3,
      show (c4b3.massCenter.x - c4b0.massCenter.x) ^ 2 +
        (c4b3.massCenter.y - c4b0.massCenter.y) ^ 2 = (73e18 : ℝ) from by
          unfold c4b0 c4b3; norm_num]
    exact not_lt.mpr ((Real.le_sqrt (by unfold SUN_RADIUS AU; norm_num)
      (by norm_num)).mpr (by unfold SUN_RADIUS AU; norm_num))
  have hc10 : ¬c4b1.collidesWith c4b0 := by
    unfold Body.collidesWith
    rw [distanceTo_eq, hradb1, hradb0,
      show (c4b0.massCenter.x - c4b1.massCenter.x) ^ 2 +
        (c4b0.massCenter.y - c4b1.massCenter.y) ^ 2 = (9e9 : ℝ) ^ 2 from by
          unfold c4b0 c4b1; norm_num,
      Real.sqrt_sq (by norm_num)]
    exact not_lt.mpr (by unfold SUN_RADIUS AU; norm_num)
  have hc12 : c4b1.collidesWith c4b2 := by
    unfold Body.collidesWith
    rw [distanceTo_eq, hradb1, hradb2,
      show (c4b2.massCenter.x - c4b1.massCenter.x) ^ 2 +
        (c4b2.massCenter.y - c4b1.massCenter.y) ^ 2 = (208e18 : ℝ) from by
          unfold c4b1 c4b2; norm_num]
    exact (Real.sqrt_lt' (by unfold AU; norm_num)).mpr
      (by unfold AU; norm_num)
  have hc13 : c4b1.collidesWith c4b3 := by
    unfold Body.collidesWith
    rw [distanceTo_eq, hradb1, hradb3,
      show (c4b3.massCenter.x - c4b1.massCenter.x) ^ 2 +
        (c4b3.massCenter.y - c4b1.massCenter.y) ^ 2 = (208e18 : ℝ) from by
          unfold c4b1 c4b3; norm_num]
    exact (Real.sqrt_lt' (by unfold AU; norm_num)).mpr
      (by unfold AU; norm_num)
  have hr4 : List.range c4Bodies.length = [0, 1, 2, 3] := rfl
  have hpIdx0 : specPartnerIdxs c4Bodies 0 = [] := by
    unfold specPartnerIdxs
    rw [hr4]
    simp only [List.filter_cons, List.filter_nil,
      decide_eq_false (fun hp : ¬(0 : ℕ) = 0 ∧
        (getB c4Bodies 0).markedForRemoval = false ∧
        (getB c4Bodies 0).collidesWith (getB c4Bodies 0) => hp.1 rfl),
      decide_eq_false (fun hp : ¬(1 : ℕ) = 0 ∧
        (getB c4Bodies 1).markedForRemoval = false ∧
        (getB c4Bodies 0).collidesWith (getB c4Bodies 1) => hc01 hp.2.2),
      decide_eq_false (fun hp : ¬(2 : ℕ) = 0 ∧
        (getB c4Bodies 2).markedForRemoval = false ∧
        (getB c4Bodies 0).collidesWith (getB c4Bodies 2) => hc02 hp.2.2),
      decide_eq_false (fun hp : ¬(3 : ℕ) = 0 ∧
        (getB c4Bodies 3).markedForRemoval = false ∧
        (getB c4Bodies 0).collidesWith (getB c4Bodies 3) => hc03 hp.2.2)]
    simp
  have hpIdx1 : specPartnerIdxs c4Bodies 1 = [2, 3] := by
    unfold specPartnerIdxs
    rw [hr4]
    simp only [List.filter_cons, List.filter_nil,
      decide_eq_false (fun hp : ¬(0 : ℕ) = 1 ∧
        (getB c4Bodies 0).markedForRemoval = false ∧
        (getB c4Bodies 1).collidesWith (getB c4Bodies 0) => hc10 hp.2.2),
      decide_eq_false (fun hp : ¬(1 : ℕ) = 1 ∧
        (getB c4Bodies 1).markedForRemoval = false ∧
        (getB c4Bodies 1).collidesWith (getB c4Bodies 1) => hp.1 rfl),
      decide_eq_true (show ¬(2 : ℕ) = 1 ∧
        (getB c4Bodies 2).markedForRemoval = false ∧
        (getB c4Bodies 1).collidesWith (getB c4Bodies 2) from
        ⟨by norm_num, rfl, hc12⟩),
      decide_eq_true (show ¬(3 : ℕ) = 1 ∧
        (getB c4Bodies 3).markedForRemoval = false ∧
        (getB c4Bodies 1).collidesWith (getB c4Bodies 3) from
        ⟨by norm_num, rfl, hc13⟩)]
    simp
  have hm1 : c4b1.merge c4b2 true = c4m1 := by
    unfold Body.merge c4b1 c4b2 c4m1 Vector2.zero
    simp only [Vector2.times, Vector2.plus, if_true]
    rw [Body.mk.injEq]
    refine ⟨by unfold SUN_MASS; norm_num, ?_, ?_, rfl, rfl, rfl⟩ <;>
      · rw [Vector2.mk.injEq]
        unfold SUN_MASS
        norm_num
  have hm2 : c4m1.merge c4b3 true = c4Merged := by
    unfold Body.merge c4m1 c4b3 c4Merged Vector2.zero
    simp only [Vector2.times, Vector2.plus, if_true]
    rw [Body.mk.injEq]
    refine ⟨by unfold SUN_MASS; norm_num, ?_, ?_, rfl, rfl, rfl⟩ <;>
      · rw [Vector2.mk.injEq]
        unfold SUN_MASS
        norm_num
  have h0eval : specOuter c4coins (c4Bodies, 0) 0 = (c4Bodies, 0) := by
    simp [specOuter, hpIdx0, specMark,
      show (getB c4Bodies 0).markedForRemoval = false from rfl]
  have h1eval : specOuter c4coins (c4Bodies, 0) 1 = (c4PostList, 2) := by
    simp only [specOuter, hpIdx1,
      show getB c4Bodies 1 = c4b1 from rfl,
      show getB c4Bodies 2 = c4b2 from rfl,
      show getB c4Bodies 3 = c4b3 from rfl,
      show c4b1.markedForRemoval = false from rfl,
      Bool.false_eq_true, if_false,
      List.map_cons, List.map_nil, mergeFold, specMark, List.foldl_cons,
      List.foldl_nil, c4coins, List.length_cons, List.length_nil]
    rw [hm1, hm2, if_neg (by norm_num : ¬(0 + 1 + 1 = 0))]
    rw [Prod.mk.injEq]
    exact ⟨rfl, by norm_num⟩
  have h2eval : specOuter c4coins (c4PostList, 2) 2 = (c4PostList, 2) := by
    simp [specOuter,
      show (getB c4PostList 2).markedForRemoval = true from rfl]
  have h3eval : specOuter c4coins (c4PostList, 2) 3 = (c4PostList, 2) := by
    simp [specOuter,
      show (getB c4PostList 3).markedForRemoval = true from rfl]
  rw [collisionPhase_eq_spec]
  unfold specCollisionPhase
  rw [hr4, List.foldl_cons, h0eval, List.foldl_cons, h1eval,
    List.foldl_cons, h2eval, List.foldl_cons, h3eval, List.foldl_nil]
  show c4PostList.filter (fun b => !b.markedForRemoval) = _
  simp only [c4PostList, List.filter_cons, List.filter_nil,
    show (!c4b0.markedForRemoval) = true from rfl,
    show (!c4Merged.markedForRemoval) = true from rfl,
    show (!(markBody c4b2).markedForRemoval) = false from rfl,
    show (!(markBody c4b3).markedForRemoval) = false from rfl]
  simp

/-- C4 witnessed failure: in the `step()` of the C4 state, the collection
reaching force accumulation contains two distinct surviving bodies at
exactly zero separation, so `gravitationalForce` is evaluated on a
zero-separation pair (`0/0` and `Infinity * NaN` in the source) — neither an
epsilon guard nor the preceding collision pass prevents it. -/
theorem zero_separation_reaches_force_loop :
    ∃ i j, i < (collisionPhase c4coins c4Bodies).length ∧
      j < (collisionPhase c4coins c4Bodies).length ∧ i ≠ j ∧
      (getB (collisionPhase c4coins c4Bodies) i).distanceTo
        (getB (collisionPhase c4coins c4Bodies) j) = 0 := by
  rw [c4_collision_phase_eval]
  refine ⟨0, 1, by norm_num, by norm_num, by norm_num, ?_⟩
  show Real.sqrt ((3e9 - 3e9) ^ 2 + (8e9 - 8e9) ^ 2) = 0
  rw [show ((3e9 : ℝ) - 3e9) ^ 2 + ((8e9 : ℝ) - 8e9) ^ 2 = 0 by norm_num]
  exact Real.sqrt_zero

end GravitySim
